import Mathlib

/-!
Shallow embedding of the capital-gains calculator's core ledger engine
(`src/main.py`): the `Transaction` record, its derived classification and
cash-effect properties, and `Holding.add_transaction` with its 30-day
bed-and-breakfast matching walk and Section 104 pool updates.

Modelling conventions:
* Python floats are modelled as `ℚ` (exact rational arithmetic).
* `datetime` transaction dates are modelled as day numbers in `ℤ`;
  `timedelta(days=30)` becomes subtraction of 30.
* Python `int` fields that are mutated by arithmetic (`quantity_repurchased`,
  `pool_quantity`) are `ℤ`; the parsed share count `quantity` (matched by the
  regex `^\d+$` in the source) is `ℕ`.
* The mutable object graph is modelled by explicit state passing: mutating a
  prior disposal held in the `sale_in_last_30_days` list becomes `List.set`
  at that disposal's index in the history list.
* The `while` loop of the matching walk is modelled with explicit fuel
  (`bnbLoop`); `none` means the fuel ran out with the loop guard still true.
* Exceptions (`NotImplementedError` for same-day trading) become `Except`.
* Narrative strings keep the shape of the source's f-strings but abstract
  the `.2f` float formatting (no claim depends on narrative text).
* Division by zero in `ℚ` yields 0 where the source would raise
  `ZeroDivisionError`; no claim depends on a zero-quantity candidate.
-/

namespace CapGains

/-- One brokerage transaction (`Transaction.__init__`, src/main.py lines
21-39). Immutable-after-construction fields first, then the three fields the
ledger mutates (`quantity_repurchased`, `gain_loss_gbp`,
`gain_loss_explanation`). The exchange rate is carried as a field because the
rate provider is an external collaborator (GBP rows carry rate 1). -/
structure Transaction where
  transaction_date : Int
  symbol : String
  description : String
  reference : String
  quantity : Nat
  debit : ℚ
  credit : ℚ
  exchange_rate : ℚ
  quantity_repurchased : Int
  gain_loss_gbp : ℚ
  gain_loss_explanation : String
deriving Repr, DecidableEq

/-- Construction from a parsed row (src/main.py lines 21-39):
`quantity_repurchased` starts at `quantity`, `gain_loss_gbp` at 0 and the
narrative empty. -/
def mkTransaction (transaction_date : Int) (symbol : String) (description : String)
    (reference : String) (quantity : Nat) (debit : ℚ) (credit : ℚ)
    (exchange_rate : ℚ) : Transaction :=
  { transaction_date := transaction_date
    symbol := symbol
    description := description
    reference := reference
    quantity := quantity
    debit := debit
    credit := credit
    exchange_rate := exchange_rate
    quantity_repurchased := quantity
    gain_loss_gbp := 0
    gain_loss_explanation := "" }

/-- Python's `str.startswith`, written over the character list so that it
evaluates by kernel reduction (`String.startsWith` is byte-position based and
does not). -/
def strStartsWith (s p : String) : Bool :=
  p.data.isPrefixOf s.data

/-- Mirrors `Transaction.type` (src/main.py lines 41-50): ordered classification into
`"DIV "`, `"BUY "`, `"SELL"` or `"CASH"`. Python truthiness of the strings
`symbol` and `_reference` is non-emptiness. -/
def Transaction.type (t : Transaction) : String :=
  if strStartsWith t.description "Div " then "DIV "
  else if t.symbol ≠ "" ∧ t.reference ≠ "" then
    if 0 < t.debit then "BUY " else "SELL"
  else "CASH"

/-- Mirrors `Transaction.balance_change` (src/main.py lines 52-56): signed native
cash effect, positive for an inflow. -/
def Transaction.balance_change (t : Transaction) : ℚ :=
  if 0 < t.credit then t.credit else -t.debit

/-- Mirrors `Transaction.balance_change_gbp` (src/main.py lines 62-64). -/
def Transaction.balance_change_gbp (t : Transaction) : ℚ :=
  t.balance_change / t.exchange_rate

/-- The per-symbol ledger (`Holding.__init__`, src/main.py lines 88-93). -/
structure Holding where
  symbol : String
  pool_quantity : Int
  pool_average_price_gbp : ℚ
  transactions : List Transaction
deriving Repr, DecidableEq

/-- A fresh ledger: empty pool, empty history (src/main.py lines 89-93). -/
def mkHolding (symbol : String) : Holding :=
  { symbol := symbol, pool_quantity := 0, pool_average_price_gbp := 0,
    transactions := [] }

/-- The errors `add_transaction` can surface in this model: the source's
`NotImplementedError` for same-day trading, and fuel exhaustion of the
matching walk (the source would loop forever at that point). -/
inductive AddErr where
  | sameDay
  | loopDiverges
deriving Repr, DecidableEq

instance : DecidableEq (Except AddErr Holding) := fun a b =>
  match a, b with
  | Except.ok x, Except.ok y =>
    if h : x = y then isTrue (by rw [h]) else isFalse (by simp [h])
  | Except.error x, Except.error y =>
    if h : x = y then isTrue (by rw [h]) else isFalse (by simp [h])
  | Except.ok _, Except.error _ => isFalse (by simp)
  | Except.error _, Except.ok _ => isFalse (by simp)

/-- The same-day filter of src/main.py line 96: an existing transaction with
the same date whose kind is neither `"DIV "` nor `"CASH"` and equals the new
transaction's kind. -/
def sameDayConflict (h : Holding) (tx : Transaction) : Bool :=
  h.transactions.any fun t =>
    t.transaction_date == tx.transaction_date &&
    !(t.type == "DIV " || t.type == "CASH") &&
    t.type == tx.type

/-- The candidate filter of src/main.py line 102: date at least
`new.transaction_date - 30` and kind `"SELL"`. Note the source imposes no
upper bound on the candidate's date. -/
def saleCandidatePred (tx : Transaction) (t : Transaction) : Bool :=
  decide (tx.transaction_date - 30 ≤ t.transaction_date) && t.type == "SELL"

/-- Mirrors `sale_in_last_30_days` (src/main.py line 102): the list of matching
prior transactions, in history order. -/
def sale_in_last_30_days (hist : List Transaction) (tx : Transaction) :
    List Transaction :=
  hist.filter (saleCandidatePred tx)

/-- Placeholder transaction used only as the default of `List.getD`; every
lookup the algorithm performs is in range, so it is never observed. -/
def dummyTx : Transaction :=
  { transaction_date := 0, symbol := "", description := "", reference := "",
    quantity := 0, debit := 0, credit := 0, exchange_rate := 1,
    quantity_repurchased := 0, gain_loss_gbp := 0, gain_loss_explanation := "" }

/-- The positions (indices into the history list) of the
`sale_in_last_30_days` candidates. Python aliases the filtered objects with
the history list; here mutation goes through these indices instead. -/
def saleCandidateIdxs (hist : List Transaction) (tx : Transaction) : List Nat :=
  (List.range hist.length).filter fun i => saleCandidatePred tx (hist.getD i dummyTx)

/-- State of the bed-and-breakfast matching walk (src/main.py lines 105-117):
the history list (mutated in place through candidate indices), the fixed
candidate index list, the accumulating new transaction, the local unmatched
counter `quantity_not_b_and_b` and the candidate pointer `i`. -/
structure BnbState where
  hist : List Transaction
  cands : List Nat
  new_transaction : Transaction
  quantity_not_b_and_b : Int
  i : Nat
deriving Repr, DecidableEq

/-- One iteration of the matching walk's body (src/main.py lines 108-117):
consume `min(sale.quantity_repurchased, quantity_not_b_and_b)` shares from the
current candidate, accumulate pro-rated proceeds plus (negative) repurchase
cost into the new transaction's gain/loss, append a narrative fragment, and
advance the pointer only when the consumed amount equals the candidate's
original quantity. -/
def bnbStep (s : BnbState) : BnbState :=
  let idx := s.cands.getD s.i 0
  let sale := s.hist.getD idx dummyTx
  let b_and_b_shares := min sale.quantity_repurchased s.quantity_not_b_and_b
  let sale2 := { sale with quantity_repurchased := sale.quantity_repurchased - b_and_b_shares }
  let sale_price : ℚ := (b_and_b_shares : ℚ) * sale.balance_change_gbp / (sale.quantity : ℚ)
  let repurchase_price : ℚ :=
    (b_and_b_shares : ℚ) * s.new_transaction.balance_change_gbp / (s.new_transaction.quantity : ℚ)
  let t2 := { s.new_transaction with
    gain_loss_gbp := s.new_transaction.gain_loss_gbp + (sale_price + repurchase_price)
    gain_loss_explanation := s.new_transaction.gain_loss_explanation ++
      "Bought back " ++ toString b_and_b_shares ++ " that were sold on day " ++
      toString sale.transaction_date ++ ". " }
  { hist := s.hist.set idx sale2
    cands := s.cands
    new_transaction := t2
    quantity_not_b_and_b := s.quantity_not_b_and_b - b_and_b_shares
    i := if b_and_b_shares == (sale.quantity : Int) then s.i + 1 else s.i }

/-- The matching walk's `while` loop (src/main.py line 107), with explicit
fuel: guard `quantity_not_b_and_b > 0 and i < len(sale_in_last_30_days)`;
`none` means the fuel ran out with the guard still true. -/
def bnbLoop : Nat → BnbState → Option BnbState
  | 0, s =>
    if 0 < s.quantity_not_b_and_b ∧ s.i < s.cands.length then none else some s
  | fuel + 1, s =>
    if 0 < s.quantity_not_b_and_b ∧ s.i < s.cands.length then bnbLoop fuel (bnbStep s)
    else some s

/-- Fuel that suffices whenever the source's loop terminates: every
productive iteration either lowers the unmatched counter (at most
`tx.quantity` times, counters being integers) or advances the candidate
pointer (at most `cands.length` times); if the loop has not exited within
this bound it is stuck and will never exit. -/
def bnbFuel (tx : Transaction) (cands : List Nat) : Nat :=
  tx.quantity + cands.length + 1

/-- Mirrors `Holding.add_transaction` (src/main.py lines 95-130), as a function from
a ledger and a transaction to an error or the updated ledger.

* line 96-99: same-day same-kind conflict raises.
* line 101-124 (`"BUY "`): with no `sale_in_last_30_days` candidate, fold the
  whole acquisition into the pool (lines 122-124); otherwise add the full
  quantity to the pool up front (line 104), run the matching walk (lines
  105-117), and fold any leftover unmatched quantity into the pool average
  using the already-incremented pool quantity (lines 118-120 — note the
  source updates only the average there, not the pool quantity again).
* line 125-128 (`"SELL"`): set the gain/loss against the pool average and
  shrink the pool, with no floor at zero.
* line 130: append the (mutated) new transaction to the history. -/
def addTransaction (h : Holding) (tx : Transaction) : Except AddErr Holding :=
  if sameDayConflict h tx then Except.error AddErr.sameDay
  else if tx.type == "BUY " then
    if (sale_in_last_30_days h.transactions tx).isEmpty then
      let newAvg : ℚ :=
        ((h.pool_quantity : ℚ) * h.pool_average_price_gbp + -tx.balance_change_gbp) /
          ((h.pool_quantity : ℚ) + (tx.quantity : ℚ))
      Except.ok { h with
        pool_average_price_gbp := newAvg
        pool_quantity := h.pool_quantity + (tx.quantity : Int)
        transactions := h.transactions ++
          [{ tx with gain_loss_explanation := tx.gain_loss_explanation ++
              "Added " ++ toString tx.quantity ++ " to the S104 Pool. " }] }
    else
      let pool2 : Int := h.pool_quantity + (tx.quantity : Int)
      let cands := saleCandidateIdxs h.transactions tx
      match bnbLoop (bnbFuel tx cands)
          { hist := h.transactions, cands := cands, new_transaction := tx,
            quantity_not_b_and_b := (tx.quantity : Int), i := 0 } with
      | none => Except.error AddErr.loopDiverges
      | some s =>
        if 0 < s.quantity_not_b_and_b then
          let newAvg : ℚ :=
            ((pool2 : ℚ) * h.pool_average_price_gbp +
              -(s.quantity_not_b_and_b : ℚ) * s.new_transaction.balance_change_gbp /
                (s.new_transaction.quantity : ℚ)) /
              ((pool2 : ℚ) + (s.quantity_not_b_and_b : ℚ))
          Except.ok { h with
            pool_quantity := pool2
            pool_average_price_gbp := newAvg
            transactions := s.hist ++
              [{ s.new_transaction with
                  gain_loss_explanation := s.new_transaction.gain_loss_explanation ++
                    "Added " ++ toString s.quantity_not_b_and_b ++ " to the S104 Pool. " }] }
        else
          Except.ok { h with
            pool_quantity := pool2
            transactions := s.hist ++ [s.new_transaction] }
  else if tx.type == "SELL" then
    let t2 := { tx with
      gain_loss_gbp := tx.balance_change_gbp - (tx.quantity : ℚ) * h.pool_average_price_gbp
      gain_loss_explanation := tx.gain_loss_explanation ++
        "Sold " ++ toString tx.quantity ++ " from S104 pool. " }
    Except.ok { h with
      pool_quantity := h.pool_quantity - (tx.quantity : Int)
      transactions := h.transactions ++ [t2] }
  else
    Except.ok { h with transactions := h.transactions ++ [tx] }

/-- The fields of a `Transaction` that the spec calls immutable once the row
is appended to a ledger: date, identity, quantity and the monetary inputs
(`kind`, `balance_change` and `balance_change_gbp` are derived from these, so
they are preserved whenever these are). -/
def immutEq (a b : Transaction) : Prop :=
  a.transaction_date = b.transaction_date ∧ a.symbol = b.symbol ∧
  a.description = b.description ∧ a.reference = b.reference ∧
  a.quantity = b.quantity ∧ a.debit = b.debit ∧ a.credit = b.credit ∧
  a.exchange_rate = b.exchange_rate

instance (a b : Transaction) : Decidable (immutEq a b) := by
  unfold immutEq; infer_instance

/-! Concrete rows used by the counterexamples, scenarios and witnesses.
All carry exchange rate 1 (a GBP account), so `balance_change_gbp` equals
`balance_change`. -/

/-- Acquisition of 100 shares for 1000 on day 0. -/
def c1Buy1 : Transaction := mkTransaction 0 "ABC" "buy abc" "r1" 100 1000 0 1

/-- Disposal of 100 shares for 1500 on day 100. -/
def c1Sell : Transaction := mkTransaction 100 "ABC" "sell abc" "r2" 100 0 1500 1

/-- Re-acquisition of 100 shares for 1200 on day 110, 10 days after the
disposal and hence inside the 30-day window. -/
def c1Buy2 : Transaction := mkTransaction 110 "ABC" "buy abc again" "r3" 100 1200 0 1

def c1H0 : Holding := mkHolding "ABC"

/-- Ledger after the day-0 acquisition: pool 100 at average price 10. -/
def c1H1 : Holding := (addTransaction c1H0 c1Buy1).toOption.getD c1H0

/-- Ledger after the day-100 disposal: pool 0, disposal gain 500. -/
def c1H2 : Holding := (addTransaction c1H1 c1Sell).toOption.getD c1H0

/-- Ledger after the day-110 re-acquisition. -/
def c1H3 : Holding := (addTransaction c1H2 c1Buy2).toOption.getD c1H0

/-- Disposal of 100 shares on day 0 (for the non-termination run). -/
def c2Sell : Transaction := mkTransaction 0 "XYZ" "sell xyz" "q1" 100 0 1500 1

/-- Acquisition of 100 shares on day 5: fully consumes the day-0 disposal's
`quantity_repurchased`. -/
def c2Buy1 : Transaction := mkTransaction 5 "XYZ" "buy xyz" "q2" 100 1200 0 1

/-- Acquisition of 50 further shares on day 10: the day-0 disposal is still a
candidate but has `quantity_repurchased = 0`, and the source's walk spins. -/
def c2Buy2 : Transaction := mkTransaction 10 "XYZ" "buy xyz more" "q3" 50 600 0 1

def c2H0 : Holding := mkHolding "XYZ"

def c2H1 : Holding := (addTransaction c2H0 c2Sell).toOption.getD c2H0

def c2H2 : Holding := (addTransaction c2H1 c2Buy1).toOption.getD c2H0

/-- The matching walk's initial state when `add_transaction` processes
`c2Buy2` against `c2H2` (src/main.py lines 105-106). -/
def c2Init : BnbState :=
  { hist := c2H2.transactions
    cands := saleCandidateIdxs c2H2.transactions c2Buy2
    new_transaction := c2Buy2
    quantity_not_b_and_b := (c2Buy2.quantity : Int)
    i := 0 }

/-- Disposal of 100 shares on day 10. -/
def c5Sell : Transaction := mkTransaction 10 "SSS" "sell s" "p1" 100 0 1500 1

/-- Acquisition of 100 shares on the same day 10: a different kind, so the
same-day check passes, and the disposal is selected as a candidate. -/
def c5Buy : Transaction := mkTransaction 10 "SSS" "buy s" "p2" 100 1000 0 1

def c5H0 : Holding := mkHolding "SSS"

def c5H1 : Holding := (addTransaction c5H0 c5Sell).toOption.getD c5H0

def c5H2 : Holding := (addTransaction c5H1 c5Buy).toOption.getD c5H0

/-- Disposal of 100 shares into a fresh ledger (empty pool). -/
def c8Sell : Transaction := mkTransaction 3 "ZZZ" "sell z" "z1" 100 0 1500 1

def c8H0 : Holding := mkHolding "ZZZ"

def c8H1 : Holding := (addTransaction c8H0 c8Sell).toOption.getD c8H0

/-- Acquisition of 100 shares at unit cost 10 (cash outflow 1000) into an
empty pool: the spec's Section 104 scenario. -/
def c4Buy : Transaction := mkTransaction 0 "AAA" "buy a" "w1" 100 1000 0 1

def c4H0 : Holding := mkHolding "AAA"

/-- A ledger holding 50 pooled shares at average price 10, used by witnesses:
the day-0 acquisition of 50 shares for 500. -/
def wBuy : Transaction := mkTransaction 0 "WWW" "buy w" "w2" 50 500 0 1

def wSell : Transaction := mkTransaction 40 "WWW" "sell w" "w3" 20 0 400 1

def wH0 : Holding := mkHolding "WWW"

def wH1 : Holding := (addTransaction wH0 wBuy).toOption.getD wH0

/-- Ledger after disposing 20 of the 50 pooled shares. -/
def wH2 : Holding := (addTransaction wH1 wSell).toOption.getD wH0



/-- Any property preserved by one iteration of the matching walk under the
loop guard is carried by `bnbLoop` from its initial to its final state. -/
theorem bnbLoop_invariant (P : BnbState → Prop)
    (hstep : ∀ s, 0 < s.quantity_not_b_and_b → s.i < s.cands.length →
      P s → P (bnbStep s)) :
    ∀ (fuel : Nat) (s s' : BnbState), P s → bnbLoop fuel s = some s' → P s' := by
  intro fuel
  induction fuel with
  | zero =>
    intro s s' hP hrun
    unfold bnbLoop at hrun
    split at hrun
    · exact absurd hrun (by simp)
    · cases hrun; exact hP
  | succ f ih =>
    intro s s' hP hrun
    unfold bnbLoop at hrun
    split at hrun
    · next hg => exact ih _ _ (hstep s hg.1 hg.2 hP) hrun
    · cases hrun; exact hP

theorem immutEq_refl (a : Transaction) : immutEq a a := by
  unfold immutEq; exact ⟨rfl, rfl, rfl, rfl, rfl, rfl, rfl, rfl⟩

theorem immutEq_trans {a b c : Transaction} (h1 : immutEq a b) (h2 : immutEq b c) :
    immutEq a c := by
  unfold immutEq at h1 h2 ⊢
  obtain ⟨e1, e2, e3, e4, e5, e6, e7, e8⟩ := h1
  obtain ⟨f1, f2, f3, f4, f5, f6, f7, f8⟩ := h2
  exact ⟨e1.trans f1, e2.trans f2, e3.trans f3, e4.trans f4, e5.trans f5,
    e6.trans f6, e7.trans f7, e8.trans f8⟩

/-- Replacing the element at `idx` by one `immutEq` to it preserves `immutEq`
of every position's lookup. -/
theorem immut_getD_set (l : List Transaction) (idx j : Nat) (a : Transaction)
    (ha : immutEq (l.getD idx dummyTx) a) :
    immutEq (l.getD j dummyTx) ((l.set idx a).getD j dummyTx) := by
  simp only [List.getD_eq_getElem?_getD, List.getElem?_set]
  split
  · next hij =>
    subst hij
    split
    · next hlt =>
      rw [List.getElem?_eq_getElem hlt]
      rw [List.getD_eq_getElem?_getD, List.getElem?_eq_getElem hlt] at ha
      simpa using ha
    · next hge =>
      rw [List.getElem?_eq_none (by omega)]
      exact immutEq_refl _
  · exact immutEq_refl _

/-- One iteration changes only `quantity_repurchased` of the current
candidate and the gain/narrative of the new transaction. -/
theorem bnbStep_immut (s : BnbState) :
    (bnbStep s).hist.length = s.hist.length ∧
    (bnbStep s).cands = s.cands ∧
    (∀ j : Nat, immutEq (s.hist.getD j dummyTx) ((bnbStep s).hist.getD j dummyTx)) ∧
    immutEq s.new_transaction (bnbStep s).new_transaction ∧
    (bnbStep s).new_transaction.quantity_repurchased = s.new_transaction.quantity_repurchased := by
  refine ⟨by simp [bnbStep], by simp [bnbStep], ?_, ?_, ?_⟩
  · intro j
    have : immutEq (s.hist.getD (s.cands.getD s.i 0) dummyTx)
        { s.hist.getD (s.cands.getD s.i 0) dummyTx with
          quantity_repurchased :=
            (s.hist.getD (s.cands.getD s.i 0) dummyTx).quantity_repurchased -
              min (s.hist.getD (s.cands.getD s.i 0) dummyTx).quantity_repurchased
                s.quantity_not_b_and_b } := by
      unfold immutEq; exact ⟨rfl, rfl, rfl, rfl, rfl, rfl, rfl, rfl⟩
    exact immut_getD_set _ _ _ _ this
  · unfold immutEq bnbStep
    exact ⟨rfl, rfl, rfl, rfl, rfl, rfl, rfl, rfl⟩
  · simp [bnbStep]




/-- The lookup the walk performs is either an element of the history or the
placeholder. -/
theorem sale_mem_or_dummy (l : List Transaction) (idx : Nat) :
    l.getD idx dummyTx ∈ l ∨ l.getD idx dummyTx = dummyTx := by
  by_cases hlt : idx < l.length
  · left
    rw [List.getD_eq_getElem?_getD, List.getElem?_eq_getElem hlt]
    exact List.getElem_mem hlt
  · right
    rw [List.getD_eq_getElem?_getD, List.getElem?_eq_none (by omega)]
    rfl

/-- One iteration keeps every history row's `quantity_repurchased` between 0
and its original `quantity`, and keeps the unmatched counter non-negative. -/
theorem bnbStep_bounds (s : BnbState)
    (hq : 0 < s.quantity_not_b_and_b)
    (hhist : ∀ t ∈ s.hist,
      0 ≤ t.quantity_repurchased ∧ t.quantity_repurchased ≤ (t.quantity : Int)) :
    (∀ t ∈ (bnbStep s).hist,
      0 ≤ t.quantity_repurchased ∧ t.quantity_repurchased ≤ (t.quantity : Int)) ∧
    0 ≤ (bnbStep s).quantity_not_b_and_b := by
  have hsale : 0 ≤ (s.hist.getD (s.cands.getD s.i 0) dummyTx).quantity_repurchased ∧
      (s.hist.getD (s.cands.getD s.i 0) dummyTx).quantity_repurchased ≤
        ((s.hist.getD (s.cands.getD s.i 0) dummyTx).quantity : Int) := by
    rcases sale_mem_or_dummy s.hist (s.cands.getD s.i 0) with hm | hd
    · exact hhist _ hm
    · rw [hd]; exact ⟨le_refl 0, by simp [dummyTx]⟩
  constructor
  · intro t ht
    simp only [bnbStep] at ht
    rcases List.mem_or_eq_of_mem_set ht with hm | he
    · exact hhist t hm
    · subst he
      constructor
      · exact Int.sub_nonneg.mpr (min_le_left _ _)
      · have hb : 0 ≤ min (s.hist.getD (s.cands.getD s.i 0) dummyTx).quantity_repurchased
            s.quantity_not_b_and_b := le_min hsale.1 (le_of_lt hq)
        simp only
        omega
  · simp only [bnbStep]
    have : min (s.hist.getD (s.cands.getD s.i 0) dummyTx).quantity_repurchased
        s.quantity_not_b_and_b ≤ s.quantity_not_b_and_b := min_le_right _ _
    omega

/-- Lookup after `List.set` at a different position. -/
theorem getD_set_ne (l : List Transaction) {i j : Nat} (h : i ≠ j) (a : Transaction) :
    (l.set i a).getD j dummyTx = l.getD j dummyTx := by
  simp only [List.getD_eq_getElem?_getD, List.getElem?_set_ne h]

/-- Lookup after `List.set` at the same, in-range position. -/
theorem getD_set_self (l : List Transaction) {i : Nat} (h : i < l.length) (a : Transaction) :
    (l.set i a).getD i dummyTx = a := by
  simp only [List.getD_eq_getElem?_getD, List.getElem?_set_self h, Option.getD_some]

/-- An iteration under the guard touches only a candidate position. -/
theorem bnbStep_untouched (s : BnbState) (j : Nat)
    (hi : s.i < s.cands.length) (hj : j ∉ s.cands) :
    (bnbStep s).hist.getD j dummyTx = s.hist.getD j dummyTx := by
  have hidx : s.cands.getD s.i 0 ∈ s.cands := by
    rw [List.getD_eq_getElem?_getD, List.getElem?_eq_getElem hi]
    exact List.getElem_mem hi
  have hne : s.cands.getD s.i 0 ≠ j := fun he => hj (he ▸ hidx)
  simp only [bnbStep]
  exact getD_set_ne _ hne _

/-- If the current candidate has `quantity_repurchased = 0` but a non-zero
original `quantity`, the walk makes no progress: the source's `while` loop
(src/main.py lines 107-117) never exits. In the fuel model, every fuel
amount runs out. -/
theorem bnbLoop_stuck (fuel : Nat) (s : BnbState)
    (hq : 0 < s.quantity_not_b_and_b) (hi : s.i < s.cands.length)
    (hrep : (s.hist.getD (s.cands.getD s.i 0) dummyTx).quantity_repurchased = 0)
    (hqty : (s.hist.getD (s.cands.getD s.i 0) dummyTx).quantity ≠ 0) :
    bnbLoop fuel s = none := by
  induction fuel generalizing s with
  | zero =>
    unfold bnbLoop
    rw [if_pos ⟨hq, hi⟩]
  | succ f ih =>
    unfold bnbLoop
    rw [if_pos ⟨hq, hi⟩]
    set sale := s.hist.getD (s.cands.getD s.i 0) dummyTx with hsale
    have hb : min sale.quantity_repurchased s.quantity_not_b_and_b = 0 := by
      rw [hrep]; exact min_eq_left (le_of_lt hq)
    have hstep_i : (bnbStep s).i = s.i := by
      simp only [bnbStep, ← hsale, hb]
      rw [if_neg]
      simp only [beq_iff_eq]
      omega
    have hstep_q : (bnbStep s).quantity_not_b_and_b = s.quantity_not_b_and_b := by
      simp only [bnbStep, ← hsale, hb]
      omega
    have hstep_c : (bnbStep s).cands = s.cands := by simp [bnbStep]
    have hidxlt : s.cands.getD s.i 0 < s.hist.length := by
      by_contra hge
      have : sale = dummyTx := by
        rw [hsale, List.getD_eq_getElem?_getD, List.getElem?_eq_none (by omega)]
        rfl
      exact hqty (by rw [this]; rfl)
    have hstep_sale : (bnbStep s).hist.getD ((bnbStep s).cands.getD (bnbStep s).i 0) dummyTx =
        { sale with quantity_repurchased := sale.quantity_repurchased - min sale.quantity_repurchased s.quantity_not_b_and_b } := by
      rw [hstep_c, hstep_i]
      simp only [bnbStep, ← hsale]
      exact getD_set_self _ hidxlt _
    apply ih
    · rw [hstep_q]; exact hq
    · rw [hstep_c, hstep_i]; exact hi
    · rw [hstep_sale]; simp only [hrep]; omega
    · rw [hstep_sale]; simpa using hqty

/-- The derived classification takes one of exactly four values. -/
theorem type_cases (t : Transaction) :
    t.type = "DIV " ∨ t.type = "BUY " ∨ t.type = "SELL" ∨ t.type = "CASH" := by
  unfold Transaction.type
  split
  · exact Or.inl rfl
  · split
    · split
      · exact Or.inr (Or.inl rfl)
      · exact Or.inr (Or.inr (Or.inl rfl))
    · exact Or.inr (Or.inr (Or.inr rfl))

/-- The Boolean same-day filter holds exactly when the history already has a
same-date transaction of the same share-moving kind. -/
theorem sameDayConflict_iff (h : Holding) (tx : Transaction) :
    sameDayConflict h tx = true ↔
      ∃ t ∈ h.transactions, t.transaction_date = tx.transaction_date ∧
        t.type = tx.type ∧ (t.type = "BUY " ∨ t.type = "SELL") := by
  unfold sameDayConflict
  rw [List.any_eq_true]
  constructor
  · rintro ⟨t, ht, hb⟩
    simp only [Bool.and_eq_true, beq_iff_eq, Bool.not_eq_true',
      Bool.or_eq_false_iff] at hb
    obtain ⟨⟨hdate, hdiv, hcash⟩, hkind⟩ := hb
    refine ⟨t, ht, hdate, hkind, ?_⟩
    rcases type_cases t with h1 | h1 | h1 | h1
    · rw [h1] at hdiv; simp at hdiv
    · exact Or.inl h1
    · exact Or.inr h1
    · rw [h1] at hcash; simp at hcash
  · rintro ⟨t, ht, hdate, hkind, hbs⟩
    refine ⟨t, ht, ?_⟩
    simp only [Bool.and_eq_true, beq_iff_eq, Bool.not_eq_true',
      Bool.or_eq_false_iff]
    rcases hbs with h1 | h1 <;>
      exact ⟨⟨hdate, by simp [h1], by simp [h1]⟩, hkind⟩

/-- C9: ordered classification — a description starting with `"Div "` yields
DIVIDEND regardless of the other fields; otherwise a non-empty symbol and
reference give ACQUISITION for positive debit and DISPOSAL otherwise;
otherwise CASH. -/
theorem C9_classification (t : Transaction) :
    (strStartsWith t.description "Div " = true → t.type = "DIV ") ∧
    (strStartsWith t.description "Div " = false →
      t.symbol ≠ "" → t.reference ≠ "" →
      ((0 < t.debit → t.type = "BUY ") ∧ (¬0 < t.debit → t.type = "SELL"))) ∧
    (strStartsWith t.description "Div " = false →
      (t.symbol = "" ∨ t.reference = "") → t.type = "CASH") := by
  unfold Transaction.type
  refine ⟨?_, ?_, ?_⟩
  · intro hdiv
    simp [hdiv]
  · intro hdiv hsym href
    constructor
    · intro hdebit
      simp [hdiv, hsym, href, hdebit]
    · intro hdebit
      simp [hdiv, hsym, href, hdebit]
  · intro hdiv hor
    rcases hor with h1 | h1 <;> simp [hdiv, h1]

/-- C7: `add_transaction` raises the same-day-trading error exactly when the
history already holds a same-date transaction of the same non-cash,
non-dividend kind (two same-date acquisitions or two same-date disposals);
the check precedes every state update (src/main.py lines 96-99), so a failed
call leaves the ledger unchanged. -/
theorem C7_same_day_error_iff (h : Holding) (tx : Transaction) :
    addTransaction h tx = Except.error AddErr.sameDay ↔
      ∃ t ∈ h.transactions, t.transaction_date = tx.transaction_date ∧
        t.type = tx.type ∧ (t.type = "BUY " ∨ t.type = "SELL") := by
  rw [← sameDayConflict_iff]
  constructor
  · intro he
    by_cases hc : sameDayConflict h tx
    · exact hc
    · exfalso
      simp only [addTransaction] at he
      rw [if_neg (by simp [hc])] at he
      split at he
      · split at he
        · exact absurd he (by simp)
        · split at he
          · exact absurd he (by simp)
          · split at he
            · exact absurd he (by simp)
            · exact absurd he (by simp)
      · split at he
        · exact absurd he (by simp)
        · exact absurd he (by simp)
  · intro hc
    unfold addTransaction
    rw [if_pos hc]


/-- Lookup on the left part of an append. -/
theorem getD_append_left (l1 l2 : List Transaction) (j : Nat) (hj : j < l1.length) :
    (l1 ++ l2).getD j dummyTx = l1.getD j dummyTx := by
  simp only [List.getD_eq_getElem?_getD, List.getElem?_append, if_pos hj]

/-- Lookup of the appended element. -/
theorem getD_concat_self (l : List Transaction) (a : Transaction) :
    (l ++ [a]).getD l.length dummyTx = a := by
  simp only [List.getD_eq_getElem?_getD, List.getElem?_concat_length, Option.getD_some]

/-- C3: a disposal (with the same-day precondition met) gets its gain/loss
set against the current pool average, shrinks the pool by its quantity, and
leaves the pool average unchanged (src/main.py lines 125-128). -/
theorem C3_disposal_updates (h : Holding) (tx : Transaction)
    (hconflict : sameDayConflict h tx = false)
    (hsell : tx.type = "SELL") :
    ∃ h', addTransaction h tx = Except.ok h' ∧
      (h'.transactions.getD h.transactions.length dummyTx).gain_loss_gbp =
        tx.balance_change_gbp - (tx.quantity : ℚ) * h.pool_average_price_gbp ∧
      h'.pool_quantity = h.pool_quantity - (tx.quantity : Int) ∧
      h'.pool_average_price_gbp = h.pool_average_price_gbp := by
  have hrun : addTransaction h tx = Except.ok
      { symbol := h.symbol
        pool_quantity := h.pool_quantity - (tx.quantity : Int)
        pool_average_price_gbp := h.pool_average_price_gbp
        transactions := h.transactions ++ [{ tx with
          gain_loss_gbp := tx.balance_change_gbp - (tx.quantity : ℚ) * h.pool_average_price_gbp
          gain_loss_explanation := tx.gain_loss_explanation ++
            "Sold " ++ toString tx.quantity ++ " from S104 pool. " }] } := by
    simp only [addTransaction, hconflict, hsell]
    rfl
  exact ⟨_, hrun, by rw [getD_concat_self], rfl, rfl⟩

/-- C4: an acquisition with no disposal candidate in the window folds into
the Section 104 pool with the spec's weighted-average formula
(src/main.py lines 121-124). -/
theorem C4_acquisition_pool_fold (h : Holding) (tx : Transaction)
    (hconflict : sameDayConflict h tx = false)
    (hbuy : tx.type = "BUY ")
    (hnosale : sale_in_last_30_days h.transactions tx = [])
    (hq : tx.quantity ≠ 0) :
    ∃ h', addTransaction h tx = Except.ok h' ∧
      h'.pool_average_price_gbp =
        ((h.pool_quantity : ℚ) * h.pool_average_price_gbp +
          (tx.quantity : ℚ) * (-tx.balance_change_gbp / (tx.quantity : ℚ))) /
        ((h.pool_quantity : ℚ) + (tx.quantity : ℚ)) ∧
      h'.pool_quantity = h.pool_quantity + (tx.quantity : Int) := by
  have hq' : (tx.quantity : ℚ) ≠ 0 := Nat.cast_ne_zero.mpr hq
  have hcost : (tx.quantity : ℚ) * (-tx.balance_change_gbp / (tx.quantity : ℚ)) =
      -tx.balance_change_gbp := by
    rw [mul_comm]
    exact div_mul_cancel₀ _ hq'
  have hrun : addTransaction h tx = Except.ok
      { symbol := h.symbol
        pool_quantity := h.pool_quantity + (tx.quantity : Int)
        pool_average_price_gbp :=
          ((h.pool_quantity : ℚ) * h.pool_average_price_gbp + -tx.balance_change_gbp) /
            ((h.pool_quantity : ℚ) + (tx.quantity : ℚ))
        transactions := h.transactions ++ [{ tx with
          gain_loss_explanation := tx.gain_loss_explanation ++
            "Added " ++ toString tx.quantity ++ " to the S104 Pool. " }] } := by
    simp only [addTransaction, hconflict, hbuy, hnosale]
    rfl
  exact ⟨_, hrun, by rw [hcost], rfl⟩


/-- Membership in the candidate index list means the looked-up row satisfies
the candidate filter. -/
theorem saleCandidateIdxs_mem (hist : List Transaction) (tx : Transaction) (j : Nat)
    (hj : j ∈ saleCandidateIdxs hist tx) :
    saleCandidatePred tx (hist.getD j dummyTx) = true := by
  unfold saleCandidateIdxs at hj
  exact (List.mem_filter.mp hj).2

/-- Everything the claims need to know about a full run of the matching walk
started the way `add_transaction` starts it: history length and candidate
list are stable, immutable fields of every history row and of the new
transaction survive, `quantity_repurchased` bounds are preserved, and rows
failing the candidate filter are untouched. -/
theorem bnbLoop_master (h0 : List Transaction) (tx : Transaction)
    (fuel : Nat) (s' : BnbState)
    (hrun : bnbLoop fuel
      { hist := h0, cands := saleCandidateIdxs h0 tx, new_transaction := tx,
        quantity_not_b_and_b := (tx.quantity : Int), i := 0 } = some s') :
    s'.hist.length = h0.length ∧
    (∀ j : Nat, immutEq (h0.getD j dummyTx) (s'.hist.getD j dummyTx)) ∧
    immutEq tx s'.new_transaction ∧
    s'.new_transaction.quantity_repurchased = tx.quantity_repurchased ∧
    ((∀ t ∈ h0, 0 ≤ t.quantity_repurchased ∧ t.quantity_repurchased ≤ (t.quantity : Int)) →
      ∀ t ∈ s'.hist, 0 ≤ t.quantity_repurchased ∧ t.quantity_repurchased ≤ (t.quantity : Int)) ∧
    (∀ j : Nat, saleCandidatePred tx (h0.getD j dummyTx) = false →
      s'.hist.getD j dummyTx = h0.getD j dummyTx) := by
  have hinv := bnbLoop_invariant (fun st =>
    st.hist.length = h0.length ∧
    st.cands = saleCandidateIdxs h0 tx ∧
    (∀ j : Nat, immutEq (h0.getD j dummyTx) (st.hist.getD j dummyTx)) ∧
    immutEq tx st.new_transaction ∧
    st.new_transaction.quantity_repurchased = tx.quantity_repurchased ∧
    ((∀ t ∈ h0, 0 ≤ t.quantity_repurchased ∧ t.quantity_repurchased ≤ (t.quantity : Int)) →
      ∀ t ∈ st.hist, 0 ≤ t.quantity_repurchased ∧ t.quantity_repurchased ≤ (t.quantity : Int)) ∧
    (∀ j : Nat, saleCandidatePred tx (h0.getD j dummyTx) = false →
      st.hist.getD j dummyTx = h0.getD j dummyTx)) ?_ fuel _ s' ?_ hrun
  · exact ⟨hinv.1, hinv.2.2.1, hinv.2.2.2.1, hinv.2.2.2.2.1,
      hinv.2.2.2.2.2.1, hinv.2.2.2.2.2.2⟩
  · intro s hq hi hP
    obtain ⟨hlen, hcands, himm, hnew, hrep, hbnd, hunt⟩ := hP
    obtain ⟨slen, scands, simm, snew, srep⟩ := bnbStep_immut s
    refine ⟨slen.trans hlen, scands.trans hcands, ?_, ?_, ?_, ?_, ?_⟩
    · intro j
      exact immutEq_trans (himm j) (simm j)
    · exact immutEq_trans hnew snew
    · exact srep.trans hrep
    · intro hbase
      exact (bnbStep_bounds s hq (hbnd hbase)).1
    · intro j hfalse
      have hjnot : j ∉ s.cands := by
        rw [hcands]
        intro hmem
        rw [saleCandidateIdxs_mem h0 tx j hmem] at hfalse
        exact absurd hfalse (by simp)
      rw [bnbStep_untouched s j hi hjnot]
      exact hunt j hfalse
  · exact ⟨rfl, rfl, fun j => immutEq_refl _, immutEq_refl tx, rfl,
      fun hbase => hbase, fun j hfalse => rfl⟩

/-- A successful `add_transaction` call decomposed for the invariant and
frame claims: the new history is the (possibly candidate-updated) old
history plus the new row appended; immutable fields survive everywhere;
`quantity_repurchased` bounds are preserved; non-candidate rows are
untouched; and the pool moves by exactly the source's branch amounts. -/
theorem addTransaction_ok_destruct (h : Holding) (tx : Transaction) (h' : Holding)
    (hok : addTransaction h tx = Except.ok h') :
    ∃ (hist2 : List Transaction) (t2 : Transaction),
      h'.transactions = hist2 ++ [t2] ∧
      hist2.length = h.transactions.length ∧
      (∀ j : Nat, immutEq (h.transactions.getD j dummyTx) (hist2.getD j dummyTx)) ∧
      immutEq tx t2 ∧
      t2.quantity_repurchased = tx.quantity_repurchased ∧
      ((∀ t ∈ h.transactions, 0 ≤ t.quantity_repurchased ∧ t.quantity_repurchased ≤ (t.quantity : Int)) →
        ∀ t ∈ hist2, 0 ≤ t.quantity_repurchased ∧ t.quantity_repurchased ≤ (t.quantity : Int)) ∧
      (∀ j : Nat, saleCandidatePred tx (h.transactions.getD j dummyTx) = false →
        hist2.getD j dummyTx = h.transactions.getD j dummyTx) ∧
      ((h'.pool_quantity = h.pool_quantity + (tx.quantity : Int) ∧ tx.type = "BUY ") ∨
       (h'.pool_quantity = h.pool_quantity - (tx.quantity : Int) ∧ tx.type = "SELL") ∨
       h'.pool_quantity = h.pool_quantity) := by
  simp only [addTransaction] at hok
  split at hok
  · exact absurd hok (by simp)
  split at hok
  · next hbuy =>
    split at hok
    · -- no candidates: fold whole acquisition into the pool
      rw [Except.ok.injEq] at hok
      subst hok
      refine ⟨h.transactions, _, rfl, rfl, fun j => immutEq_refl _, ?_, rfl,
        fun hbase => hbase, fun j hfalse => rfl, Or.inl ⟨rfl, by simpa using hbuy⟩⟩
      unfold immutEq
      exact ⟨rfl, rfl, rfl, rfl, rfl, rfl, rfl, rfl⟩
    · split at hok
      · exact absurd hok (by simp)
      · next s hbl =>
        have hm := bnbLoop_master h.transactions tx _ s hbl
        split at hok
        · -- leftover unmatched quantity folded into the pool
          rw [Except.ok.injEq] at hok
          subst hok
          refine ⟨s.hist, _, rfl, hm.1, hm.2.1, ?_, hm.2.2.2.1, hm.2.2.2.2.1,
            hm.2.2.2.2.2, Or.inl ⟨rfl, by simpa using hbuy⟩⟩
          refine immutEq_trans hm.2.2.1 ?_
          unfold immutEq
          exact ⟨rfl, rfl, rfl, rfl, rfl, rfl, rfl, rfl⟩
        · -- fully matched: the provisional pool increment stands
          rw [Except.ok.injEq] at hok
          subst hok
          exact ⟨s.hist, _, rfl, hm.1, hm.2.1, hm.2.2.1, hm.2.2.2.1,
            hm.2.2.2.2.1, hm.2.2.2.2.2, Or.inl ⟨rfl, by simpa using hbuy⟩⟩
  · split at hok
    · next hsell =>
      rw [Except.ok.injEq] at hok
      subst hok
      refine ⟨h.transactions, _, rfl, rfl, fun j => immutEq_refl _, ?_, rfl,
        fun hbase => hbase, fun j hfalse => rfl, Or.inr (Or.inl ⟨rfl, by simpa using hsell⟩)⟩
      unfold immutEq
      exact ⟨rfl, rfl, rfl, rfl, rfl, rfl, rfl, rfl⟩
    · rw [Except.ok.injEq] at hok
      subst hok
      exact ⟨h.transactions, tx, rfl, rfl, fun j => immutEq_refl _, immutEq_refl tx,
        rfl, fun hbase => hbase, fun j hfalse => rfl, Or.inr (Or.inr rfl)⟩


/-- C5 (amended): every selected candidate is a disposal dated no earlier
than 30 days before the acquisition (the source imposes no strict upper
bound, so same-day disposals qualify too); candidates keep history order;
and rows failing the filter are never touched by a successful call. -/
theorem C5_amended_candidate_window (h : Holding) (tx : Transaction) :
    (∀ t ∈ sale_in_last_30_days h.transactions tx,
      t.type = "SELL" ∧ tx.transaction_date - 30 ≤ t.transaction_date) ∧
    (sale_in_last_30_days h.transactions tx).Sublist h.transactions ∧
    (∀ h', addTransaction h tx = Except.ok h' →
      ∀ j : Nat, j < h.transactions.length →
        saleCandidatePred tx (h.transactions.getD j dummyTx) = false →
        h'.transactions.getD j dummyTx = h.transactions.getD j dummyTx) := by
  refine ⟨?_, ?_, ?_⟩
  · intro t ht
    have hp := (List.mem_filter.mp ht).2
    unfold saleCandidatePred at hp
    rw [Bool.and_eq_true] at hp
    exact ⟨by simpa using hp.2, by simpa using hp.1⟩
  · exact List.filter_sublist _
  · intro h' hok j hj hfalse
    obtain ⟨hist2, t2, htrans, hlen, _, _, _, _, hunt, _⟩ :=
      addTransaction_ok_destruct h tx h' hok
    rw [htrans, getD_append_left _ _ j (by rw [hlen]; exact hj), hunt j hfalse]

/-- C6: `quantity_repurchased` stays between 0 and the row's original
quantity across any successful `add_transaction` call — so the shares
matched against a disposal never exceed its original quantity. -/
theorem C6_repurchase_bounds (h : Holding) (tx : Transaction) (h' : Holding)
    (hinv : ∀ t ∈ h.transactions,
      0 ≤ t.quantity_repurchased ∧ t.quantity_repurchased ≤ (t.quantity : Int))
    (htx : 0 ≤ tx.quantity_repurchased ∧ tx.quantity_repurchased ≤ (tx.quantity : Int))
    (hok : addTransaction h tx = Except.ok h') :
    ∀ t ∈ h'.transactions,
      0 ≤ t.quantity_repurchased ∧ t.quantity_repurchased ≤ (t.quantity : Int) := by
  obtain ⟨hist2, t2, htrans, hlen, himm, hnew, hrep, hbnd, _, _⟩ :=
    addTransaction_ok_destruct h tx h' hok
  intro t ht
  rw [htrans] at ht
  rcases List.mem_append.mp ht with hm | hm
  · exact hbnd hinv t hm
  · have ht2 : t = t2 := by simpa using hm
    subst ht2
    have hq : tx.quantity = t.quantity := hnew.2.2.2.2.1
    exact ⟨by rw [hrep]; exact htx.1, by rw [hrep, ← hq]; exact htx.2⟩

/-- C8 (amended): the pool quantity stays non-negative provided every
disposal's quantity is at most the pool quantity at the time it is
processed; the source itself never enforces this floor. -/
theorem C8_amended_pool_nonneg (h : Holding) (tx : Transaction) (h' : Holding)
    (hpool : 0 ≤ h.pool_quantity)
    (hsell : tx.type = "SELL" → (tx.quantity : Int) ≤ h.pool_quantity)
    (hok : addTransaction h tx = Except.ok h') :
    0 ≤ h'.pool_quantity := by
  obtain ⟨_, _, _, _, _, _, _, _, _, hpq⟩ := addTransaction_ok_destruct h tx h' hok
  rcases hpq with ⟨hval, _⟩ | ⟨hval, hty⟩ | hval
  · rw [hval]; have := Int.natCast_nonneg tx.quantity; omega
  · rw [hval]; have := hsell hty; omega
  · rw [hval]; exact hpool

/-- C10: a successful `add_transaction` call appends exactly one row and
changes no already-appended row's date, identity, quantity or monetary
fields; the appended row keeps the new transaction's immutable fields. -/
theorem C10_immutable_fields (h : Holding) (tx : Transaction) (h' : Holding)
    (hok : addTransaction h tx = Except.ok h') :
    h'.transactions.length = h.transactions.length + 1 ∧
    (∀ j : Nat, j < h.transactions.length →
      immutEq (h.transactions.getD j dummyTx) (h'.transactions.getD j dummyTx)) ∧
    immutEq tx (h'.transactions.getD h.transactions.length dummyTx) := by
  obtain ⟨hist2, t2, htrans, hlen, himm, hnew, _, _, _, _⟩ :=
    addTransaction_ok_destruct h tx h' hok
  refine ⟨?_, ?_, ?_⟩
  · rw [htrans, List.length_append, hlen]
    rfl
  · intro j hj
    rw [htrans, getD_append_left _ _ j (by rw [hlen]; exact hj)]
    exact himm j
  · rw [htrans, ← hlen, getD_concat_self]
    exact hnew



set_option maxRecDepth 800000 in
/-- C1 (counterexample): in the spec's scenario — disposal of 100 then
re-acquisition of 100 within 30 days at a different price — the source does
NOT leave the pool where it was after the disposal (line 104 adds the full
quantity and nothing removes it), and the disposal's own gain/loss is NOT
recomputed to the repurchase-based value 300 (it keeps its pool-average
value; the re-pricing lands on the acquisition row). -/
theorem C1_counterexample :
    c1H3.pool_quantity ≠ c1H2.pool_quantity ∧
    (c1H3.transactions.getD 1 dummyTx).gain_loss_gbp ≠ 1500 - 1200 := by
  with_unfolding_all decide

set_option maxRecDepth 800000 in
/-- C1 (amended): in the scenario the disposal's gain/loss keeps its
pool-average-based value (500); the matched re-pricing (1500 - 1200 = 300)
accumulates on the acquisition row instead; the disposal is fully consumed
(`quantity_repurchased` 0); and the acquisition adds its full quantity to
the pool, so the pool ends at pool-after-disposal + 100. -/
theorem C1_amended_scenario :
    c1H2.pool_quantity = 0 ∧
    c1H3.pool_quantity = c1H2.pool_quantity + 100 ∧
    (c1H2.transactions.getD 1 dummyTx).gain_loss_gbp = 500 ∧
    (c1H3.transactions.getD 1 dummyTx).gain_loss_gbp = 500 ∧
    (c1H3.transactions.getD 2 dummyTx).gain_loss_gbp = 1500 - 1200 ∧
    (c1H3.transactions.getD 1 dummyTx).quantity_repurchased = 0 := by
  with_unfolding_all decide

set_option maxRecDepth 800000 in
/-- C2: the matching walk does NOT always stop. After a disposal of 100 is
fully consumed by one acquisition, a further acquisition within the window
finds the disposal with `quantity_repurchased = 0`; the walk consumes 0
shares, the advance test `b_and_b_shares == sale.quantity` (0 == 100) fails,
and the source's `while` loop never exits: in the fuel model every fuel
gives `none`, and `add_transaction` surfaces the divergence marker. -/
theorem C2_loop_divergence :
    (∀ fuel : Nat, bnbLoop fuel c2Init = none) ∧
    addTransaction c2H2 c2Buy2 = Except.error AddErr.loopDiverges := by
  constructor
  · intro fuel
    apply bnbLoop_stuck
    · with_unfolding_all decide
    · with_unfolding_all decide
    · with_unfolding_all decide
    · with_unfolding_all decide
  · with_unfolding_all decide

set_option maxRecDepth 800000 in
/-- C5 (counterexample): a disposal dated the SAME day as the acquisition —
not strictly before it — is selected as a bed-and-breakfast candidate
(line 102 has no upper date bound) and is actually matched: its
`quantity_repurchased` drops from 100 to 0. -/
theorem C5_counterexample :
    (c5H1.transactions.getD 0 dummyTx) ∈ sale_in_last_30_days c5H1.transactions c5Buy ∧
    (c5H1.transactions.getD 0 dummyTx).type = "SELL" ∧
    (c5H1.transactions.getD 0 dummyTx).transaction_date = c5Buy.transaction_date ∧
    (c5H1.transactions.getD 0 dummyTx).quantity_repurchased = 100 ∧
    (c5H2.transactions.getD 0 dummyTx).quantity_repurchased = 0 := by
  with_unfolding_all decide

set_option maxRecDepth 800000 in
/-- C8 (counterexample): disposing of 100 shares into a fresh ledger
succeeds and leaves `pool_quantity = -100`: the pool is not kept ≥ 0. -/
theorem C8_counterexample :
    addTransaction c8H0 c8Sell = Except.ok c8H1 ∧
    c8H1.pool_quantity = -100 ∧ ¬0 ≤ c8H1.pool_quantity := by
  with_unfolding_all decide

set_option maxRecDepth 800000 in
/-- Witness for C3 at a concrete ledger (pool 50 at average 10) and a
concrete disposal of 20 shares for 400. -/
theorem C3_witness :
    sameDayConflict wH1 wSell = false ∧ wSell.type = "SELL" ∧
    (∃ h', addTransaction wH1 wSell = Except.ok h' ∧
      (h'.transactions.getD wH1.transactions.length dummyTx).gain_loss_gbp =
        wSell.balance_change_gbp - (wSell.quantity : ℚ) * wH1.pool_average_price_gbp ∧
      h'.pool_quantity = wH1.pool_quantity - (wSell.quantity : Int) ∧
      h'.pool_average_price_gbp = wH1.pool_average_price_gbp) :=
  ⟨by with_unfolding_all decide, by with_unfolding_all decide,
    C3_disposal_updates wH1 wSell (by with_unfolding_all decide)
      (by with_unfolding_all decide)⟩

set_option maxRecDepth 800000 in
/-- Witness for C4: the spec's scenario — 100 shares at unit cost 10 into
an empty pool yield average 10 and pool quantity 100. -/
theorem C4_witness :
    sameDayConflict c4H0 c4Buy = false ∧ c4Buy.type = "BUY " ∧
    sale_in_last_30_days c4H0.transactions c4Buy = [] ∧ c4Buy.quantity ≠ 0 ∧
    (∃ h', addTransaction c4H0 c4Buy = Except.ok h' ∧
      h'.pool_average_price_gbp =
        ((c4H0.pool_quantity : ℚ) * c4H0.pool_average_price_gbp +
          (c4Buy.quantity : ℚ) * (-c4Buy.balance_change_gbp / (c4Buy.quantity : ℚ))) /
        ((c4H0.pool_quantity : ℚ) + (c4Buy.quantity : ℚ)) ∧
      h'.pool_quantity = c4H0.pool_quantity + (c4Buy.quantity : Int)) ∧
    ((addTransaction c4H0 c4Buy).toOption.getD c4H0).pool_average_price_gbp = 10 ∧
    ((addTransaction c4H0 c4Buy).toOption.getD c4H0).pool_quantity = 100 :=
  ⟨by with_unfolding_all decide, by with_unfolding_all decide,
    by with_unfolding_all decide, by with_unfolding_all decide,
    C4_acquisition_pool_fold c4H0 c4Buy (by with_unfolding_all decide)
      (by with_unfolding_all decide) (by with_unfolding_all decide)
      (by with_unfolding_all decide),
    by with_unfolding_all decide, by with_unfolding_all decide⟩

set_option maxRecDepth 800000 in
/-- Witness for C6 at a concrete ledger and disposal. -/
theorem C6_witness :
    addTransaction wH1 wSell = Except.ok wH2 ∧
    (∀ t ∈ wH2.transactions,
      0 ≤ t.quantity_repurchased ∧ t.quantity_repurchased ≤ (t.quantity : Int)) :=
  ⟨by with_unfolding_all decide,
    C6_repurchase_bounds wH1 wSell wH2 (by with_unfolding_all decide)
      (by with_unfolding_all decide) (by with_unfolding_all decide)⟩

set_option maxRecDepth 800000 in
/-- Witness for the amended C8 at a concrete ledger and disposal. -/
theorem C8_witness :
    0 ≤ wH1.pool_quantity ∧ 0 ≤ wH2.pool_quantity :=
  ⟨by with_unfolding_all decide,
    C8_amended_pool_nonneg wH1 wSell wH2 (by with_unfolding_all decide)
      (by with_unfolding_all decide) (by with_unfolding_all decide)⟩

set_option maxRecDepth 800000 in
/-- Witness for C10 at a concrete ledger and disposal. -/
theorem C10_witness :
    addTransaction wH1 wSell = Except.ok wH2 ∧
    (wH2.transactions.length = wH1.transactions.length + 1 ∧
      (∀ j : Nat, j < wH1.transactions.length →
        immutEq (wH1.transactions.getD j dummyTx) (wH2.transactions.getD j dummyTx)) ∧
      immutEq wSell (wH2.transactions.getD wH1.transactions.length dummyTx)) :=
  ⟨by with_unfolding_all decide,
    C10_immutable_fields wH1 wSell wH2 (by with_unfolding_all decide)⟩

end CapGains
